import Mathlib

/-!
Verification of the `nexus_pipeline.py` staged-processing core.

A shallow embedding: Python values are the inductive `Value` (dicts are
association lists preserving insertion order, Python's semantics), Python
exceptions are `Except String`, and the mutable objects of the source
(`ProcessingPipeline`, `NexusManager`) are passed as explicit state.
Python integers are unbounded, so counters are `Nat` and numeric readings
are `ℚ`.
-/

set_option autoImplicit false

namespace Nexus

/-- A Python value as used by the pipeline code: `None`, booleans, numbers
(ints and floats merged into `ℚ`), strings, lists, and dicts
(insertion-ordered key/value association lists with string keys, which is
the only key type the program ever uses). -/
inductive Value where
  | none
  | bool (b : Bool)
  | num (q : ℚ)
  | str (s : String)
  | list (xs : List Value)
  | dict (entries : List (String × Value))

/-- First-occurrence lookup in an association list: `d[k]` / `k in d` /
`d.get(k)` on a Python dict. -/
def lookup {α : Type} : List (String × α) → String → Option α
  | [], _ => Option.none
  | p :: rest, k => if p.1 = k then some p.2 else lookup rest k

/-- `d[k] = v` on a Python dict: overwrite the first occurrence in place
(Python keeps the key's original position), or append a fresh key. -/
def setKey {α : Type} : List (String × α) → String → α → List (String × α)
  | [], k, v => [(k, v)]
  | p :: rest, k, v =>
    if p.1 = k then (k, v) :: rest else p :: setKey rest k v

/-- A processing stage (the `ProcessingStage` protocol): `process` takes a
value and either returns a value or raises (`Except.error`). -/
def Stage : Type := Value → Except String Value

/-- `InputStage.process`: raises `ValueError` on `None`, else passes the
value through unchanged (`nexus_pipeline.py` lines 73-78). -/
def InputStage.process : Stage := fun data =>
  match data with
  | .none => .error "Input data cannot be None"
  | _ => .ok data

/-- `TransformStage.process`: on a dict, copies it and sets
`new_data['_metadata'] = 'enriched'`; any other value passes through
unchanged (`nexus_pipeline.py` lines 84-91). -/
def TransformStage.process : Stage := fun data =>
  match data with
  | .dict entries => .ok (.dict (setKey entries "_metadata" (.str "enriched")))
  | _ => .ok data

/-- `OutputStage.process`: identity pass-through
(`nexus_pipeline.py` lines 97-100). -/
def OutputStage.process : Stage := fun data => .ok data

/-- The `execution_stats` dict of a `ProcessingPipeline`
(`nexus_pipeline.py` lines 21-26). -/
structure ExecutionStats where
  total_executions : Nat
  successful_executions : Nat
  failed_executions : Nat
  error_recoveries : Nat
deriving DecidableEq, Repr

/-- A `ProcessingPipeline` object: id, ordered stage list, stats. -/
structure Pipeline where
  pipeline_id : String
  stages : List Stage
  execution_stats : ExecutionStats

/-- The `for stage in self.stages: result = stage.process(result)` loop of
`execute`: fold the stages left to right, propagating the first raise. -/
def runStages : List Stage → Value → Except String Value
  | [], v => .ok v
  | s :: rest, v =>
    match s v with
    | .ok v' => runStages rest v'
    | .error e => .error e

/-- `ProcessingPipeline.execute` (`nexus_pipeline.py` lines 32-46): run all
stages in sequence; on success increment `total_executions` and
`successful_executions` and return the final result; on any exception
increment `total_executions` and `failed_executions` and return the
original input. -/
def Pipeline.execute (p : Pipeline) (data : Value) : Pipeline × Value :=
  match runStages p.stages data with
  | .ok result =>
    ({ p with execution_stats :=
        { p.execution_stats with
          total_executions := p.execution_stats.total_executions + 1
          successful_executions := p.execution_stats.successful_executions + 1 } },
      result)
  | .error _ =>
    ({ p with execution_stats :=
        { p.execution_stats with
          total_executions := p.execution_stats.total_executions + 1
          failed_executions := p.execution_stats.failed_executions + 1 } },
      data)

/-- `ProcessingPipeline.add_stage` (`nexus_pipeline.py` lines 28-30). -/
def Pipeline.add_stage (p : Pipeline) (s : Stage) : Pipeline :=
  { p with stages := p.stages ++ [s] }

/-- The dict returned by `ProcessingPipeline.get_stats`
(`nexus_pipeline.py` lines 53-66). -/
structure StatsView where
  pipeline_id : String
  total_executions : Nat
  success_rate : ℚ
  error_recoveries : Nat

/-- `ProcessingPipeline.get_stats`: `success_rate` is
`successful / total * 100` when `total > 0`, else `0`; it reads the stats
without assigning to them (in this embedding it consumes the pipeline and
returns only the snapshot, so it cannot change a counter). -/
def Pipeline.get_stats (p : Pipeline) : StatsView :=
  let total := p.execution_stats.total_executions
  let efficiency : ℚ :=
    if total > 0 then
      ((p.execution_stats.successful_executions : ℚ) / (total : ℚ)) * 100
    else 0
  { pipeline_id := p.pipeline_id
    total_executions := total
    success_rate := efficiency
    error_recoveries := p.execution_stats.error_recoveries }

/-- The stage list `[InputStage(), TransformStage(), OutputStage()]` that
every adapter constructor installs (`nexus_pipeline.py` lines 108, 135, 163). -/
def adapterStages : List Stage :=
  [InputStage.process, TransformStage.process, OutputStage.process]

/- ## Adapters -/

/-- The `self.execution_stats['error_recoveries'] += 1` line of every
adapter's `except` clause. -/
def bumpRecoveries (p : Pipeline) : Pipeline :=
  { p with execution_stats :=
      { p.execution_stats with
        error_recoveries := p.execution_stats.error_recoveries + 1 } }

/-- Round half to even, the tie rule of Python's `round`. -/
def roundHalfEven (q : ℚ) : ℤ :=
  let f := ⌊q⌋
  if q - f < 1/2 then f
  else if 1/2 < q - f then f + 1
  else if f % 2 = 0 then f else f + 1

/-- Python's `round(x, 1)` on exact rational arithmetic. -/
def pyRound1 (q : ℚ) : ℚ := ((roundHalfEven (q * 10) : ℤ) : ℚ) / 10

/-- The format-specific summary an adapter's `process` prints (the data
embedded in its `print` lines); `Option.none` when no summary is printed. -/
inductive Report where
  | jsonSummary (value : Value) (unit : String)
  | csvSummary (action_count : Nat)
  | streamSummary (count : Nat) (mean : ℚ)

/-- `JSONAdapter.process` (`nexus_pipeline.py` lines 111-128): on a dict,
run `execute`; when the result is a dict with a `value` key, print a
summary using `unit = result.get('unit', 'C')` — the string concatenation
`... + unit` raises `TypeError` when `unit` is not a string, and the
`except` clause then increments `error_recoveries` and returns `{}`.
Non-dict input is passed to `execute` with no summary. -/
def JSONAdapter.process (p : Pipeline) (data : Value) :
    Pipeline × Value × Option Report :=
  match data with
  | .dict _ =>
    let r := p.execute data
    match r.2 with
    | .dict entries =>
      if (lookup entries "value").isSome then
        match (lookup entries "unit").getD (.str "C") with
        | .str u =>
          (r.1, .dict entries,
            some (.jsonSummary ((lookup entries "value").getD (.str "N/A")) u))
        | _ => (bumpRecoveries r.1, .dict [], Option.none)
      else (r.1, .dict entries, Option.none)
    | _ => (r.1, r.2, Option.none)
  | _ =>
    let r := p.execute data
    (r.1, r.2, Option.none)

/-- Python slicing `x[1:]`: defined for lists and strings, a `TypeError`
for every other value the program can hold. -/
def pySlice1 : Value → Option Value
  | .list xs => some (.list (xs.drop 1))
  | .str s => some (.str (s.drop 1))
  | _ => Option.none

/-- The elements produced by iterating a sliced value (a list yields its
elements, a string yields its one-character strings). -/
def iterElems : Value → List Value
  | .list xs => xs
  | .str s => s.toList.map fun c => Value.str (String.singleton c)
  | _ => []

/-- The `isinstance(l, str) and len(l) > 0` filter of `CSVAdapter`. -/
def isNonemptyStr : Value → Bool
  | .str s => decide (s.length > 0)
  | _ => false

/-- `CSVAdapter.process` (`nexus_pipeline.py` lines 138-156): split a
string input on newlines (otherwise use the value as the row sequence),
run `execute` on it, then count the non-empty string rows after the
header via `lines[1:]` — which raises when `lines` is not sliceable, in
which case `except` increments `error_recoveries` and returns `""`. -/
def CSVAdapter.process (p : Pipeline) (data : Value) :
    Pipeline × Value × Option Report :=
  let lines : Value :=
    match data with
    | .str s => .list ((s.splitOn "\n").map Value.str)
    | _ => data
  let r := p.execute lines
  match pySlice1 lines with
  | some tail =>
    let action_count := ((iterElems tail).filter isNonemptyStr).length
    (r.1, r.2, some (.csvSummary action_count))
  | Option.none => (bumpRecoveries r.1, .str "", Option.none)

/-- Python `len`: defined for lists, strings and dicts, a `TypeError`
otherwise. -/
def pyLen : Value → Option Nat
  | .list xs => some xs.length
  | .str s => some s.length
  | .dict es => some es.length
  | _ => Option.none

/-- The values Python's `sum` accepts: a list of numbers (booleans count
as `1`/`0`); any other element raises at that point. -/
def numList : List Value → Option (List ℚ)
  | [] => some []
  | .num q :: rest => (numList rest).map fun l => q :: l
  | .bool b :: rest => (numList rest).map fun l => (if b then (1 : ℚ) else 0) :: l
  | _ => Option.none

/-- Python `sum(readings)`: succeeds exactly on a list of numbers; a
non-empty string or dict (and any list with a non-numeric element)
raises. -/
def sumReadings : Value → Option ℚ
  | .list xs => (numList xs).map List.sum
  | _ => Option.none

/-- `StreamAdapter.process` (`nexus_pipeline.py` lines 166-188): on a
dict, take `readings = data.get('readings', [])`, compute
`count = len(readings)` and `avg = sum(readings)/count` when `count > 0`
else `avg = 0`, run `execute` on the whole record, and print the summary
with `round(avg, 1)`. A `len` or `sum` failure hits the `except` clause
before `execute` runs: `error_recoveries` is incremented and `{}`
returned. Non-dict input goes straight to `execute`. -/
def StreamAdapter.process (p : Pipeline) (data : Value) :
    Pipeline × Value × Option Report :=
  match data with
  | .dict entries =>
    let readings := (lookup entries "readings").getD (.list [])
    match pyLen readings with
    | Option.none => (bumpRecoveries p, .dict [], Option.none)
    | some count =>
      if count = 0 then
        let r := p.execute data
        (r.1, r.2, some (.streamSummary 0 (pyRound1 0)))
      else
        match sumReadings readings with
        | some s =>
          let avg : ℚ := s / (count : ℚ)
          let r := p.execute data
          (r.1, r.2, some (.streamSummary count (pyRound1 avg)))
        | Option.none => (bumpRecoveries p, .dict [], Option.none)
  | _ =>
    let r := p.execute data
    (r.1, r.2, Option.none)

/- ## Manager -/

/-- The concrete pipeline classes of the file; polymorphic dispatch of
`process` picks the override by this tag. -/
inductive AdapterKind where
  | json
  | csv
  | stream
deriving DecidableEq

/-- A registered pipeline object: its class plus its
`ProcessingPipeline` state. -/
structure PipelineObj where
  kind : AdapterKind
  state : Pipeline

/-- Virtual call `pipeline.process(data)`. -/
def PipelineObj.process (obj : PipelineObj) (data : Value) :
    PipelineObj × Value × Option Report :=
  match obj.kind with
  | .json =>
    let (p', v, r) := JSONAdapter.process obj.state data
    (⟨.json, p'⟩, v, r)
  | .csv =>
    let (p', v, r) := CSVAdapter.process obj.state data
    (⟨.csv, p'⟩, v, r)
  | .stream =>
    let (p', v, r) := StreamAdapter.process obj.state data
    (⟨.stream, p'⟩, v, r)

/-- `NexusManager` (`nexus_pipeline.py` lines 192-198): the registry dict,
the chain plan, and the (decorative) capacity. -/
structure NexusManager where
  pipelines : List (String × PipelineObj)
  pipeline_chain : List String
  capacity : Nat

/-- `NexusManager.register_pipeline` (lines 200-202): keyed by the
pipeline's own id, last write wins. -/
def NexusManager.register_pipeline (m : NexusManager) (obj : PipelineObj) :
    NexusManager :=
  { m with pipelines := setKey m.pipelines obj.state.pipeline_id obj }

/-- `NexusManager.chain_pipelines` (lines 204-206). -/
def NexusManager.chain_pipelines (m : NexusManager) (ids : List String) :
    NexusManager :=
  { m with pipeline_chain := ids }

/-- One iteration of the `execute_chain` loop: ids absent from the
registry are skipped, a present id's pipeline processes the running value
and its updated state is stored back. -/
def chainStep (st : List (String × PipelineObj) × Value) (pid : String) :
    List (String × PipelineObj) × Value :=
  match lookup st.1 pid with
  | Option.none => st
  | some obj =>
    let r := obj.process st.2
    (setKey st.1 pid r.1, r.2.1)

/-- `NexusManager.execute_chain` (lines 208-215). -/
def NexusManager.execute_chain (m : NexusManager) (data : Value) :
    NexusManager × Value :=
  let res := m.pipeline_chain.foldl chainStep (m.pipelines, data)
  ({ m with pipelines := res.1 }, res.2)

/-- `NexusManager.process_polymorphic` (lines 217-222): raises
`ValueError("Pipeline not found")` on an unregistered id, otherwise
delegates to the pipeline's `process`. -/
def NexusManager.process_polymorphic (m : NexusManager) (pipeline_id : String)
    (data : Value) : Except String (NexusManager × Value × Option Report) :=
  match lookup m.pipelines pipeline_id with
  | Option.none => .error "Pipeline not found"
  | some obj =>
    let r := obj.process data
    .ok ({ m with pipelines := setKey m.pipelines pipeline_id r.1 }, r.2.1, r.2.2)

/- ## Association-list lemmas -/

theorem lookup_setKey_self {α : Type} (es : List (String × α)) (k : String) (v : α) :
    lookup (setKey es k v) k = some v := by
  induction es with
  | nil => simp [setKey, lookup]
  | cons hd tl ih =>
    by_cases h : hd.1 = k
    · simp [setKey, h, lookup]
    · simp [setKey, h, lookup, ih]

theorem lookup_setKey_ne {α : Type} (es : List (String × α)) (k k' : String) (v : α)
    (h : k' ≠ k) : lookup (setKey es k v) k' = lookup es k' := by
  have hne : ¬ k = k' := fun hk => h hk.symm
  induction es with
  | nil => simp [setKey, lookup, hne]
  | cons hd tl ih =>
    by_cases hk : hd.1 = k
    · have h1 : ¬ hd.1 = k' := by rw [hk]; exact hne
      simp [setKey, hk, lookup, hne, h1]
    · have hset : setKey (hd :: tl) k v = hd :: setKey tl k v := by simp [setKey, hk]
      rw [hset]
      by_cases hk' : hd.1 = k'
      · simp [lookup, hk']
      · simp [lookup, hk', ih]

theorem setKey_setKey_same {α : Type} (es : List (String × α)) (k : String) (v : α) :
    setKey (setKey es k v) k v = setKey es k v := by
  induction es with
  | nil => simp [setKey]
  | cons hd tl ih =>
    by_cases h : hd.1 = k
    · simp [setKey, h]
    · simp [setKey, h, ih]

/-- Whether a value is a Python dict (a mapping). -/
def Value.isDict : Value → Bool
  | .dict _ => true
  | _ => false

/- ## Operations on one pipeline object (for the stats invariants) -/

/-- One observable operation a caller can perform on a pipeline object:
a direct `execute`, an `add_stage`, or one of the three adapter
`process` overrides (the only methods of the file that touch
`execution_stats`). -/
inductive Op where
  | execute (data : Value)
  | addStage (s : Stage)
  | processJSON (data : Value)
  | processCSV (data : Value)
  | processStream (data : Value)

/-- Run one operation, keeping the pipeline state it leaves behind. -/
def applyOp (p : Pipeline) : Op → Pipeline
  | .execute d => (p.execute d).1
  | .addStage s => p.add_stage s
  | .processJSON d => (JSONAdapter.process p d).1
  | .processCSV d => (CSVAdapter.process p d).1
  | .processStream d => (StreamAdapter.process p d).1

/-- Componentwise order on the four counters. -/
def statsLe (a b : ExecutionStats) : Prop :=
  a.total_executions ≤ b.total_executions ∧
  a.successful_executions ≤ b.successful_executions ∧
  a.failed_executions ≤ b.failed_executions ∧
  a.error_recoveries ≤ b.error_recoveries

theorem statsLe_refl (a : ExecutionStats) : statsLe a a :=
  ⟨le_refl _, le_refl _, le_refl _, le_refl _⟩

theorem statsLe_trans {a b c : ExecutionStats} (h1 : statsLe a b)
    (h2 : statsLe b c) : statsLe a c :=
  ⟨h1.1.trans h2.1, h1.2.1.trans h2.2.1, h1.2.2.1.trans h2.2.2.1,
    h1.2.2.2.trans h2.2.2.2⟩

theorem statsLe_execute (p : Pipeline) (d : Value) :
    statsLe p.execution_stats (p.execute d).1.execution_stats := by
  unfold Pipeline.execute
  cases runStages p.stages d with
  | ok r => exact ⟨Nat.le_succ _, Nat.le_succ _, le_refl _, le_refl _⟩
  | error e => exact ⟨Nat.le_succ _, le_refl _, Nat.le_succ _, le_refl _⟩

theorem statsLe_bumpRecoveries (p : Pipeline) :
    statsLe p.execution_stats (bumpRecoveries p).execution_stats :=
  ⟨le_refl _, le_refl _, le_refl _, Nat.le_succ _⟩

theorem statsLe_processJSON (p : Pipeline) (d : Value) :
    statsLe p.execution_stats (JSONAdapter.process p d).1.execution_stats := by
  have hex := statsLe_execute p d
  unfold JSONAdapter.process
  cases d <;> dsimp only <;>
    first
      | exact hex
      | ((repeat' split) <;>
          first
            | exact hex
            | exact statsLe_trans hex (statsLe_bumpRecoveries _))

theorem statsLe_processCSV (p : Pipeline) (d : Value) :
    statsLe p.execution_stats (CSVAdapter.process p d).1.execution_stats := by
  unfold CSVAdapter.process
  cases d <;> dsimp only <;> (repeat' split) <;>
    first
      | exact statsLe_execute p _
      | exact statsLe_trans (statsLe_execute p _) (statsLe_bumpRecoveries _)

theorem statsLe_processStream (p : Pipeline) (d : Value) :
    statsLe p.execution_stats (StreamAdapter.process p d).1.execution_stats := by
  unfold StreamAdapter.process
  cases d <;> dsimp only <;> (repeat' split) <;>
    first
      | exact statsLe_execute p _
      | exact statsLe_bumpRecoveries _

theorem statsLe_applyOp (p : Pipeline) (op : Op) :
    statsLe p.execution_stats (applyOp p op).execution_stats := by
  cases op with
  | execute d => exact statsLe_execute p d
  | addStage s => exact statsLe_refl _
  | processJSON d => exact statsLe_processJSON p d
  | processCSV d => exact statsLe_processCSV p d
  | processStream d => exact statsLe_processStream p d

theorem statsLe_foldl_applyOp (ops : List Op) (p : Pipeline) :
    statsLe p.execution_stats (ops.foldl applyOp p).execution_stats := by
  induction ops generalizing p with
  | nil => exact statsLe_refl _
  | cons op rest ih =>
    exact statsLe_trans (statsLe_applyOp p op) (ih (applyOp p op))

/- ## Claims -/

/-- C1, counterexample: on the concrete three-stage pipeline with zeroed
stats, `execute(None)` leaves `error_recoveries` at 0 — it is not
incremented by 1 as the claim states. -/
theorem C1_counterexample :
    ¬ ((Pipeline.execute ⟨"json_processor", adapterStages, ⟨0, 0, 0, 0⟩⟩
          Value.none).1.execution_stats.error_recoveries = 0 + 1) := by
  decide

/-- C1, amended: for every pipeline whose stage list is
`[InputStage, TransformStage, OutputStage]`, `execute(None)` increments
`total_executions` and `failed_executions` by exactly 1, leaves
`successful_executions` and `error_recoveries` unchanged, and returns the
`None` input unchanged. -/
theorem C1_execute_none_stats (id : String) (st : ExecutionStats) :
    Pipeline.execute ⟨id, adapterStages, st⟩ Value.none =
      (⟨id, adapterStages,
        ⟨st.total_executions + 1, st.successful_executions,
          st.failed_executions + 1, st.error_recoveries⟩⟩, Value.none) := by
  cases st
  rfl

/-- C2, counterexample: `TransformStage.process` on the mapping
`{"a": 1}` (which has no `validated` key) does not produce a mapping
containing `validated = true`; it adds `_metadata = 'enriched'` instead. -/
theorem C2_counterexample :
    ¬ (∃ es, TransformStage.process (Value.dict [("a", Value.num 1)]) =
          Except.ok (Value.dict es) ∧
        lookup es "validated" = some (Value.bool true)) := by
  rintro ⟨es, hes, hv⟩
  simp only [show TransformStage.process (Value.dict [("a", Value.num 1)]) =
      Except.ok (Value.dict
        [("a", Value.num 1), ("_metadata", Value.str "enriched")]) from rfl,
    Except.ok.injEq, Value.dict.injEq] at hes
  subst hes
  simp [lookup] at hv

/-- C2, amended: for every mapping run through a pipeline with the three
built-in stages, `execute` returns the mapping with `_metadata` set to
`'enriched'` (not `validated = true`); the field is present in the
result, every key other than `_metadata` keeps its original value, and
any non-mapping, non-`None` value passes through `TransformStage`
unchanged. -/
theorem C2_transform_metadata (id : String) (st : ExecutionStats)
    (entries : List (String × Value)) :
    (Pipeline.execute ⟨id, adapterStages, st⟩ (Value.dict entries)).2 =
        Value.dict (setKey entries "_metadata" (Value.str "enriched")) ∧
    lookup (setKey entries "_metadata" (Value.str "enriched")) "_metadata" =
        some (Value.str "enriched") ∧
    (∀ k, k ≠ "_metadata" →
      lookup (setKey entries "_metadata" (Value.str "enriched")) k =
        lookup entries k) ∧
    (∀ v : Value, v.isDict = false → v ≠ Value.none →
      TransformStage.process v = Except.ok v) := by
  refine ⟨?_, lookup_setKey_self entries _ _,
    fun k hk => lookup_setKey_ne entries _ k _ hk, fun v hv _ => ?_⟩
  · simp [Pipeline.execute, runStages, adapterStages, InputStage.process,
      TransformStage.process, OutputStage.process]
  · cases v <;> simp_all [TransformStage.process, Value.isDict]

/-- C2, witness for the amended theorem at concrete inputs. -/
theorem C2_witness :
    (Pipeline.execute ⟨"json_processor", adapterStages, ⟨0, 0, 0, 0⟩⟩
        (Value.dict [("a", Value.num 1)])).2 =
      Value.dict (setKey [("a", Value.num 1)] "_metadata" (Value.str "enriched")) ∧
    lookup (setKey [("a", Value.num 1)] "_metadata" (Value.str "enriched")) "a" =
      lookup [("a", Value.num 1)] "a" ∧
    TransformStage.process (Value.num 5) = Except.ok (Value.num 5) := by
  obtain ⟨h1, _, h3, h4⟩ :=
    C2_transform_metadata "json_processor" ⟨0, 0, 0, 0⟩ [("a", Value.num 1)]
  exact ⟨h1, h3 "a" (by decide), h4 (Value.num 5) rfl (fun h => Value.noConfusion h)⟩

/-- C3: `execute` always returns a value and never propagates a stage
failure: for every pipeline and input, if some stage raises then
`execute` returns the original input with `total`/`failed` bumped, and if
no stage raises it returns the final result with `total`/`successful`
bumped — in both cases it returns normally to the caller. -/
theorem C3_execute_absorbs (p : Pipeline) (data : Value) :
    (∀ e, runStages p.stages data = Except.error e →
        p.execute data =
          ({ p with execution_stats :=
              { p.execution_stats with
                total_executions := p.execution_stats.total_executions + 1
                failed_executions := p.execution_stats.failed_executions + 1 } },
            data)) ∧
    (∀ r, runStages p.stages data = Except.ok r →
        p.execute data =
          ({ p with execution_stats :=
              { p.execution_stats with
                total_executions := p.execution_stats.total_executions + 1
                successful_executions :=
                  p.execution_stats.successful_executions + 1 } },
            r)) := by
  constructor
  · intro e he
    simp [Pipeline.execute, he]
  · intro r hr
    simp [Pipeline.execute, hr]

/-- C3, witness: the failing stage of a concrete run (the `InputStage`
raise on `None`) is absorbed and `execute` returns the input. -/
theorem C3_witness :
    Pipeline.execute ⟨"p", adapterStages, ⟨0, 0, 0, 0⟩⟩ Value.none =
      (⟨"p", adapterStages, ⟨1, 0, 1, 0⟩⟩, Value.none) :=
  (C3_execute_absorbs ⟨"p", adapterStages, ⟨0, 0, 0, 0⟩⟩ Value.none).1
    "Input data cannot be None" rfl

/-- C6: `get_stats` reports `success_rate = 0` when `total_executions`
is 0 and `successful / total * 100` (exact rational arithmetic)
otherwise; the snapshot exposes the counters unchanged, and in this
embedding `get_stats` is a pure function of the pipeline, so it changes
no counter. -/
theorem C6_success_rate (p : Pipeline) :
    (p.get_stats).success_rate =
      (if p.execution_stats.total_executions = 0 then 0
        else ((p.execution_stats.successful_executions : ℚ) /
          (p.execution_stats.total_executions : ℚ)) * 100) ∧
    (p.get_stats).total_executions = p.execution_stats.total_executions ∧
    (p.get_stats).error_recoveries = p.execution_stats.error_recoveries := by
  refine ⟨?_, rfl, rfl⟩
  simp only [Pipeline.get_stats]
  rcases Nat.eq_zero_or_pos p.execution_stats.total_executions with h | h
  · simp [h]
  · simp [h, Nat.pos_iff_ne_zero.mp h]

/- ## Chain lemmas -/

theorem chainStep_missing (st : List (String × PipelineObj) × Value) (pid : String)
    (h : lookup st.1 pid = Option.none) : chainStep st pid = st := by
  simp [chainStep, h]

theorem chainStep_preserves_missing (st : List (String × PipelineObj) × Value)
    (q pid : String) (h : lookup st.1 pid = Option.none) :
    lookup (chainStep st q).1 pid = Option.none := by
  cases hq : lookup st.1 q with
  | none => rw [chainStep_missing st q hq]; exact h
  | some obj =>
    have hne : pid ≠ q := by
      rintro rfl
      rw [h] at hq
      cases hq
    simp only [chainStep, hq]
    rw [lookup_setKey_ne _ _ _ _ hne]
    exact h

theorem foldl_chainStep_missing (l : List String)
    (st : List (String × PipelineObj) × Value) (pid : String)
    (h : lookup st.1 pid = Option.none) :
    lookup (l.foldl chainStep st).1 pid = Option.none := by
  induction l generalizing st with
  | nil => exact h
  | cons q rest ih => exact ih _ (chainStep_preserves_missing st q pid h)

/-- C4: an unregistered id in the chain is a no-op: executing a chain
`chain1 ++ [pid] ++ chain2` where `pid` is not in the registry gives
the same returned value and the same registered-pipeline states as
executing `chain1 ++ chain2`; in particular `["A", "MISSING", "B"]`
behaves as `["A", "B"]`. Registered pipelines feed each output to the
next in list order (the fold in `execute_chain`). -/
theorem C4_chain_skips_missing (m : NexusManager) (data : Value)
    (chain1 chain2 : List String) (pid : String)
    (h : lookup m.pipelines pid = Option.none) :
    (NexusManager.execute_chain
        { m with pipeline_chain := chain1 ++ pid :: chain2 } data).2 =
      (NexusManager.execute_chain
        { m with pipeline_chain := chain1 ++ chain2 } data).2 ∧
    (NexusManager.execute_chain
        { m with pipeline_chain := chain1 ++ pid :: chain2 } data).1.pipelines =
      (NexusManager.execute_chain
        { m with pipeline_chain := chain1 ++ chain2 } data).1.pipelines := by
  have hmid : lookup ((chain1.foldl chainStep (m.pipelines, data)).1) pid =
      Option.none := foldl_chainStep_missing chain1 _ pid h
  simp only [NexusManager.execute_chain, List.foldl_append, List.foldl_cons]
  rw [chainStep_missing _ _ hmid]
  exact ⟨rfl, rfl⟩

/-- C4, witness: with only `"A"` registered, the chain
`["A", "MISSING"]` gives the same result as `["A"]`. -/
theorem C4_witness :
    (NexusManager.execute_chain
        ⟨[("A", ⟨AdapterKind.json, ⟨"A", adapterStages, ⟨0, 0, 0, 0⟩⟩⟩)],
          ["A", "MISSING"], 1000⟩ (Value.num 1)).2 =
      (NexusManager.execute_chain
        ⟨[("A", ⟨AdapterKind.json, ⟨"A", adapterStages, ⟨0, 0, 0, 0⟩⟩⟩)],
          ["A"], 1000⟩ (Value.num 1)).2 ∧
    (NexusManager.execute_chain
        ⟨[("A", ⟨AdapterKind.json, ⟨"A", adapterStages, ⟨0, 0, 0, 0⟩⟩⟩)],
          ["A", "MISSING"], 1000⟩ (Value.num 1)).1.pipelines =
      (NexusManager.execute_chain
        ⟨[("A", ⟨AdapterKind.json, ⟨"A", adapterStages, ⟨0, 0, 0, 0⟩⟩⟩)],
          ["A"], 1000⟩ (Value.num 1)).1.pipelines :=
  C4_chain_skips_missing
    ⟨[("A", ⟨AdapterKind.json, ⟨"A", adapterStages, ⟨0, 0, 0, 0⟩⟩⟩)], [], 1000⟩
    (Value.num 1) ["A"] [] "MISSING" rfl

/-- C5: dispatching through `process_polymorphic` with an unregistered id
raises `ValueError("Pipeline not found")` to the caller (not absorbed),
and with a registered id delegates to that pipeline object's `process`
on the data, returning its result and storing its updated state. -/
theorem C5_dispatch (m : NexusManager) (pid : String) (data : Value) :
    (lookup m.pipelines pid = Option.none →
      m.process_polymorphic pid data = Except.error "Pipeline not found") ∧
    (∀ obj, lookup m.pipelines pid = some obj →
      m.process_polymorphic pid data =
        Except.ok
          ({ m with pipelines := setKey m.pipelines pid (obj.process data).1 },
            (obj.process data).2.1, (obj.process data).2.2)) := by
  constructor
  · intro h
    simp [NexusManager.process_polymorphic, h]
  · intro obj h
    simp [NexusManager.process_polymorphic, h]

/-- C5, witness: on a concrete manager with one registered JSON adapter,
the missing id raises and the registered id returns the pipeline's
result. -/
theorem C5_witness :
    NexusManager.process_polymorphic
        ⟨[("jp", ⟨AdapterKind.json, ⟨"jp", adapterStages, ⟨0, 0, 0, 0⟩⟩⟩)], [], 1000⟩
        "missing_id" (Value.num 1) = Except.error "Pipeline not found" ∧
    NexusManager.process_polymorphic
        ⟨[("jp", ⟨AdapterKind.json, ⟨"jp", adapterStages, ⟨0, 0, 0, 0⟩⟩⟩)], [], 1000⟩
        "jp" (Value.num 1) =
      Except.ok
        (⟨[("jp", ⟨AdapterKind.json, ⟨"jp", adapterStages, ⟨1, 1, 0, 0⟩⟩⟩)], [], 1000⟩,
          Value.num 1, Option.none) := by
  constructor
  · exact (C5_dispatch _ "missing_id" (Value.num 1)).1 rfl
  · exact (C5_dispatch
      ⟨[("jp", ⟨AdapterKind.json, ⟨"jp", adapterStages, ⟨0, 0, 0, 0⟩⟩⟩)], [], 1000⟩
      "jp" (Value.num 1)).2
      ⟨AdapterKind.json, ⟨"jp", adapterStages, ⟨0, 0, 0, 0⟩⟩⟩ rfl

/-- C9: `TransformStage` is idempotent with respect to an existing
`validated = true` marker: a mapping already containing it still
contains it after `TransformStage.process`, and running the stage's
output through the stage again returns that output unchanged (no
toggling, no duplicate effects). -/
theorem C9_transform_idempotent (entries : List (String × Value))
    (h : lookup entries "validated" = some (Value.bool true)) :
    TransformStage.process (Value.dict entries) =
      Except.ok (Value.dict (setKey entries "_metadata" (Value.str "enriched"))) ∧
    lookup (setKey entries "_metadata" (Value.str "enriched")) "validated" =
      some (Value.bool true) ∧
    TransformStage.process
        (Value.dict (setKey entries "_metadata" (Value.str "enriched"))) =
      Except.ok (Value.dict (setKey entries "_metadata" (Value.str "enriched"))) := by
  refine ⟨rfl, ?_, ?_⟩
  · rw [lookup_setKey_ne _ _ _ _ (by decide : "validated" ≠ "_metadata")]
    exact h
  · simp [TransformStage.process, setKey_setKey_same]

/-- C9, witness at the mapping `{"validated": true}`. -/
theorem C9_witness :
    TransformStage.process (Value.dict [("validated", Value.bool true)]) =
      Except.ok (Value.dict
        (setKey [("validated", Value.bool true)] "_metadata" (Value.str "enriched"))) ∧
    lookup (setKey [("validated", Value.bool true)] "_metadata" (Value.str "enriched"))
        "validated" = some (Value.bool true) ∧
    TransformStage.process (Value.dict
        (setKey [("validated", Value.bool true)] "_metadata" (Value.str "enriched"))) =
      Except.ok (Value.dict
        (setKey [("validated", Value.bool true)] "_metadata" (Value.str "enriched"))) :=
  C9_transform_idempotent [("validated", Value.bool true)] rfl

/-- C7: the four `execution_stats` counters are natural numbers (hence
non-negative at all times), every sequence of operations on a pipeline
leaves each counter monotonically non-decreasing, and each `execute`
call updates the record exactly once: `total_executions` grows by
exactly 1, exactly one of `successful_executions`/`failed_executions`
grows by exactly 1, and `execute` itself never touches
`error_recoveries` (only the adapters' `except` clauses do). -/
theorem C7_stats_invariants (p : Pipeline) (ops : List Op) (data : Value) :
    (0 ≤ p.execution_stats.total_executions ∧
      0 ≤ p.execution_stats.successful_executions ∧
      0 ≤ p.execution_stats.failed_executions ∧
      0 ≤ p.execution_stats.error_recoveries) ∧
    statsLe p.execution_stats ((ops.foldl applyOp p).execution_stats) ∧
    ((p.execute data).1.execution_stats.total_executions =
        p.execution_stats.total_executions + 1 ∧
      (p.execute data).1.execution_stats.successful_executions +
          (p.execute data).1.execution_stats.failed_executions =
        p.execution_stats.successful_executions +
          p.execution_stats.failed_executions + 1 ∧
      (p.execute data).1.execution_stats.error_recoveries =
        p.execution_stats.error_recoveries) := by
  refine ⟨⟨Nat.zero_le _, Nat.zero_le _, Nat.zero_le _, Nat.zero_le _⟩,
    statsLe_foldl_applyOp ops p, ?_⟩
  unfold Pipeline.execute
  cases runStages p.stages data with
  | ok r => exact ⟨rfl, by dsimp only; omega, rfl⟩
  | error e => exact ⟨rfl, by dsimp only; omega, rfl⟩

theorem pyRound1_zero : pyRound1 0 = 0 := by
  simp only [pyRound1, roundHalfEven]
  norm_num

/-- C8: the Stream adapter's reported mean: for a mapping whose
`readings` field holds a list of numbers (`numList` gives their values
`qs`), the printed summary reports the length of the list and, when it
is non-empty, the mean `sum / len` rounded to one decimal; for an empty
list the reported mean is `0` (the division is guarded by the
`count > 0` check). -/
theorem C8_stream_mean (p : Pipeline) (entries : List (String × Value))
    (xs : List Value) (qs : List ℚ)
    (hr : lookup entries "readings" = some (Value.list xs))
    (hn : numList xs = some qs) :
    (StreamAdapter.process p (Value.dict entries)).2.2 =
      some (Report.streamSummary xs.length
        (if xs.length = 0 then 0
          else pyRound1 (qs.sum / (xs.length : ℚ)))) := by
  unfold StreamAdapter.process
  simp only [hr, Option.getD_some, pyLen]
  by_cases hx : xs.length = 0
  · simp [hx, pyRound1_zero]
  · simp only [if_neg hx, sumReadings, hn, Option.map_some']

/-- C8, witness at the readings `[1, 2]` and at the empty readings
list. -/
theorem C8_witness :
    (StreamAdapter.process ⟨"stream_processor", adapterStages, ⟨0, 0, 0, 0⟩⟩
        (Value.dict [("readings", Value.list [Value.num 1, Value.num 2])])).2.2 =
      some (Report.streamSummary [Value.num 1, Value.num 2].length
        (if [Value.num 1, Value.num 2].length = 0 then 0
          else pyRound1 (([(1 : ℚ), 2].sum) /
            ([Value.num 1, Value.num 2].length : ℚ)))) :=
  C8_stream_mean ⟨"stream_processor", adapterStages, ⟨0, 0, 0, 0⟩⟩
    [("readings", Value.list [Value.num 1, Value.num 2])]
    [Value.num 1, Value.num 2] [1, 2] rfl rfl

/- ## Reference-semantics model (for the in-place mutation claim) -/

/-- Python values with reference semantics for dicts: a mapping is an
address into a store of dict bodies, so in-place mutation of an argument
would be observable at its address. -/
inductive HValue where
  | none
  | bool (b : Bool)
  | num (q : ℚ)
  | str (s : String)
  | ref (addr : Nat)
deriving DecidableEq

/-- The heap of dict bodies; address `a` holds `σ[a]?`; allocation
appends at the end. -/
abbrev Store := List (List (String × HValue))

/-- Allocate a new dict body: the new store and the fresh address. -/
def Store.alloc (σ : Store) (es : List (String × HValue)) : Store × Nat :=
  (σ ++ [es], σ.length)

/-- A stage over the heap: takes and returns the store and may raise. -/
def HStage : Type := Store → HValue → Store × Except String HValue

/-- `InputStage.process` over the heap (no heap access). -/
def InputStage.processH : HStage := fun σ v =>
  match v with
  | .none => (σ, .error "Input data cannot be None")
  | _ => (σ, .ok v)

/-- `TransformStage.process` over the heap: `new_data = dict(data)` reads
the argument's body and `new_data['_metadata'] = 'enriched'` writes into
a freshly allocated copy; the argument's own body is never written. -/
def TransformStage.processH : HStage := fun σ v =>
  match v with
  | .ref a =>
    match σ[a]? with
    | some es =>
      let r := Store.alloc σ (setKey es "_metadata" (.str "enriched"))
      (r.1, .ok (.ref r.2))
    | Option.none => (σ, .error "dangling reference")
  | _ => (σ, .ok v)

/-- `OutputStage.process` over the heap. -/
def OutputStage.processH : HStage := fun σ v => (σ, .ok v)

/-- The stage loop of `execute` over the heap; heap effects made before
a raise persist. -/
def runStagesH : List HStage → Store → HValue → Store × Except String HValue
  | [], σ, v => (σ, .ok v)
  | s :: rest, σ, v =>
    let r := s σ v
    match r.2 with
    | .ok v' => runStagesH rest r.1 v'
    | .error e => (r.1, .error e)

/-- `ProcessingPipeline.execute` over the heap: the final value on
success, the original input value on an absorbed failure (the stats
bookkeeping lives in the plain model). -/
def executeH (stages : List HStage) (σ : Store) (data : HValue) :
    Store × HValue :=
  let r := runStagesH stages σ data
  match r.2 with
  | .ok result => (r.1, result)
  | .error _ => (r.1, data)

/-- The `[InputStage(), TransformStage(), OutputStage()]` list over the
heap. -/
def adapterStagesH : List HStage :=
  [InputStage.processH, TransformStage.processH, OutputStage.processH]

/-- C10: `execute` over the three built-in stages never mutates the
caller's input in place: every dict body present in the store before the
call — the caller's mapping in particular — is unchanged at its address
after `execute` returns, on success and on failure alike, because
`TransformStage` only reads the argument and writes a fresh copy. -/
theorem C10_execute_no_input_mutation (σ : Store) (v : HValue) (a : Nat)
    (es : List (String × HValue)) (h : σ[a]? = some es) :
    ((executeH adapterStagesH σ v).1)[a]? = some es := by
  have ha : a < σ.length := by
    by_contra h'
    push_neg at h'
    rw [List.getElem?_eq_none h'] at h
    cases h
  cases v with
  | ref b =>
    cases hb : σ[b]? with
    | none =>
      simpa [executeH, runStagesH, adapterStagesH, InputStage.processH,
        TransformStage.processH, hb] using h
    | some es' =>
      simp only [executeH, runStagesH, adapterStagesH, InputStage.processH,
        TransformStage.processH, OutputStage.processH, hb, Store.alloc]
      rw [List.getElem?_append_left ha]
      exact h
  | none =>
    simpa [executeH, runStagesH, adapterStagesH, InputStage.processH] using h
  | bool b =>
    simpa [executeH, runStagesH, adapterStagesH, InputStage.processH,
      TransformStage.processH, OutputStage.processH] using h
  | num q =>
    simpa [executeH, runStagesH, adapterStagesH, InputStage.processH,
      TransformStage.processH, OutputStage.processH] using h
  | str s =>
    simpa [executeH, runStagesH, adapterStagesH, InputStage.processH,
      TransformStage.processH, OutputStage.processH] using h

/-- C10, witness: a one-dict store is unchanged at address 0 after the
three-stage `execute` on a reference to it. -/
theorem C10_witness :
    ((executeH adapterStagesH [[("x", HValue.num 1)]] (HValue.ref 0)).1)[0]? =
      some [("x", HValue.num 1)] :=
  C10_execute_no_input_mutation [[("x", HValue.num 1)]] (HValue.ref 0) 0
    [("x", HValue.num 1)] rfl

end Nexus
